import Mathlib

/-!
Verification of the nofx decision core: the AI-response parser
(`extractDecisions`, `validateJSONFormat`), the decision validator
(`validateDecisions`, `EnhancedValidator`), the position-sizing engine
(`ComputePositionSize`) and the stop-loss lifecycle check
(`CheckManagementAction`).

Modelling conventions:
* Go `string` values are modelled as lists of UTF-8 bytes (`GoStr`),
  because the parser code indexes and slices strings by byte.
* Go `float64` arithmetic is modelled by exact rational arithmetic (`ℚ`);
  the verified properties are algebraic comparisons, not rounding facts.
* Go `int` is modelled by `ℤ`.
* External collaborators (the exchange balance query, `market.Get`,
  `json.Unmarshal`) are passed in as explicit parameters.
-/

deriving instance DecidableEq for Except

namespace Nofx

/-- A Go string, as its list of UTF-8 bytes. -/
abbrev GoStr := List Nat

/-- UTF-8 encoding of one character (standard 1-4 byte encoding). -/
def utf8Char (c : Char) : List Nat :=
  let n := c.toNat
  if n < 0x80 then [n]
  else if n < 0x800 then [0xC0 + n / 0x40, 0x80 + n % 0x40]
  else if n < 0x10000 then
    [0xE0 + n / 0x1000, 0x80 + (n / 0x40) % 0x40, 0x80 + n % 0x40]
  else
    [0xF0 + n / 0x40000, 0x80 + (n / 0x1000) % 0x40,
     0x80 + (n / 0x40) % 0x40, 0x80 + n % 0x40]

/-- Encode a Lean string literal into the byte representation of the
corresponding Go string. -/
def g (s : String) : GoStr := s.data.flatMap utf8Char

/-- The byte set matched by Go's `unicode.IsSpace` within ASCII:
`\t \n \v \f \r ' '` (used by `strings.TrimSpace`). -/
def isGoSpace (b : Nat) : Bool :=
  b = 9 || b = 10 || b = 11 || b = 12 || b = 13 || b = 32

/-- The byte set matched by the regexp class `\s` in Go's RE2:
`[\t\n\f\r ]` (note: no vertical tab). -/
def isReSpace (b : Nat) : Bool :=
  b = 9 || b = 10 || b = 12 || b = 13 || b = 32

/-- Function `strings.TrimSpace` restricted to ASCII whitespace. -/
def goTrimSpace (s : GoStr) : GoStr :=
  ((s.dropWhile isGoSpace).reverse.dropWhile isGoSpace).reverse

/-- ASCII lower-casing of one byte (`strings.ToLower` on ASCII data). -/
def lowerByte (b : Nat) : Nat :=
  if 65 ≤ b ∧ b ≤ 90 then b + 32 else b

/-- ASCII upper-casing of one byte (`strings.ToUpper` on ASCII data). -/
def upperByte (b : Nat) : Nat :=
  if 97 ≤ b ∧ b ≤ 122 then b - 32 else b

def goToLower (s : GoStr) : GoStr := s.map lowerByte

def goToUpper (s : GoStr) : GoStr := s.map upperByte

/-- First index of `s` at which `pat` starts as a contiguous substring. -/
def indexOfSub (pat : GoStr) : GoStr → Option Nat
  | [] => if pat = [] then some 0 else none
  | b :: rest =>
    if pat.isPrefixOf (b :: rest) then some 0
    else (indexOfSub pat rest).map (· + 1)

/-- Function `strings.Contains`: `pat` occurs as a contiguous substring of `s`. -/
def goContains (s pat : GoStr) : Bool := (indexOfSub pat s).isSome

/-- Fuel-driven worker for `replaceAll`; the fuel is an upper bound on the
remaining length, so it never runs out. -/
def replaceAllFuel (pat rep : GoStr) : Nat → GoStr → GoStr
  | 0, s => s
  | _ + 1, [] => []
  | fuel + 1, b :: rest =>
    if pat.isPrefixOf (b :: rest) then
      rep ++ replaceAllFuel pat rep fuel (rest.drop (pat.length - 1))
    else
      b :: replaceAllFuel pat rep fuel rest

/-- Go `strings.ReplaceAll` (non-overlapping, left to right). All patterns
used in the source are nonempty. -/
def replaceAll (pat rep : GoStr) (s : GoStr) : GoStr :=
  replaceAllFuel pat rep s.length s

/-! ## Data model (`decision` and `market` packages) -/

/-- Struct `market.LongerTermData` (the 4h context; only the field the core reads). -/
structure LongerTermData where
  atr14 : ℚ
deriving DecidableEq

/-- Struct `market.IntradayData` (only the field the core reads). -/
structure IntradayData where
  atr14 : ℚ
deriving DecidableEq

/-- Struct `market.DailyData` (only the field the core reads). -/
structure DailyData where
  atr14Values : List ℚ
deriving DecidableEq

/-- Struct `market.Data` restricted to the fields consumed by the decision core.
Nil-able pointers become `Option`. -/
structure MarketData where
  currentPrice : ℚ
  longerTermContext : Option LongerTermData := none
  intradaySeries : Option IntradayData := none
  dailyContext : Option DailyData := none
deriving DecidableEq

/-- Struct `decision.Decision`. String fields are byte strings, `float64` fields
are `ℚ`, `int` fields are `ℤ`. `SuggestedPositionSizeUSD` is the canonical
suggested-notional field read by the position-sizing engine
(src/unnamed/part_006). -/
structure Decision where
  symbol : GoStr := []
  action : GoStr := []
  leverage : ℤ := 0
  positionSizeUSD : ℚ := 0
  stopLoss : ℚ := 0
  takeProfit : ℚ := 0
  entryPrice : ℚ := 0
  newStopLoss : ℚ := 0
  newTakeProfit : ℚ := 0
  closePercentage : ℚ := 0
  confidence : ℤ := 0
  riskUSD : ℚ := 0
  suggestedPositionSizeUSD : ℚ := 0
  reasoning : GoStr := []
deriving DecidableEq

/-- Struct `decision.PositionInfo` restricted to the fields the stop-loss
lifecycle check reads. -/
structure PositionInfo where
  symbol : GoStr := []
  side : GoStr := []
  entryPrice : ℚ := 0
  markPrice : ℚ := 0
deriving DecidableEq

/-! ## Response parser (`decision/management.go`) -/

/-- Function `fixMissingQuotes`: replace CJK/full-width punctuation with ASCII, in
the exact order of the `strings.ReplaceAll` chain in the source. -/
def fixMissingQuotes (s : GoStr) : GoStr :=
  let s := replaceAll (g "“") (g "\"") s
  let s := replaceAll (g "”") (g "\"") s
  let s := replaceAll (g "‘") (g "'") s
  let s := replaceAll (g "’") (g "'") s
  let s := replaceAll (g "［") (g "[") s
  let s := replaceAll (g "］") (g "]") s
  let s := replaceAll (g "｛") (g "\x7b") s
  let s := replaceAll (g "｝") (g "\x7d") s
  let s := replaceAll (g "：") (g ":") s
  let s := replaceAll (g "，") (g ",") s
  let s := replaceAll (g "【") (g "[") s
  let s := replaceAll (g "】") (g "]") s
  let s := replaceAll (g "〔") (g "[") s
  let s := replaceAll (g "〕") (g "]") s
  let s := replaceAll (g "、") (g ",") s
  let s := replaceAll (g "　") (g " ") s
  s

/-- Function `removeInvisibleRunes`: strip the zero-width runes and the BOM
(the regex class `[​‌‍﻿]`). -/
def removeInvisibleRunes (s : GoStr) : GoStr :=
  let s := replaceAll (g "​") [] s
  let s := replaceAll (g "‌") [] s
  let s := replaceAll (g "‍") [] s
  let s := replaceAll (g "﻿") [] s
  s

/-- Function `compactArrayOpen`: rewrite a leading `[ {` (regex `^\[\s+\{`) of the
trimmed string into `[{`. -/
def compactArrayOpen (s : GoStr) : GoStr :=
  let t := goTrimSpace s
  match t with
  | 91 :: rest =>
    if (rest.takeWhile isReSpace).length > 0 then
      match rest.dropWhile isReSpace with
      | 123 :: r2 => 91 :: 123 :: r2
      | _ => t
    else t
  | _ => t

/-- Content of the first `<decision>...</decision>` pair (the regex
`(?s)<decision>(.*?)</decision>`, leftmost-first). -/
def decisionTagContent (s : GoStr) : Option GoStr :=
  match indexOfSub (g "<decision>") s with
  | none => none
  | some i =>
    let after := s.drop (i + (g "<decision>").length)
    (indexOfSub (g "</decision>") after).map (fun j => after.take j)

/-- All ways to close the pattern `.*?\}\s*\]` at the current point, in
order of increasing content length. Each candidate is
(content ++ `}` ++ spaces ++ `]`, remainder). -/
def arrCloses : GoStr → List (GoStr × GoStr)
  | [] => []
  | b :: rest =>
    let tailC := (arrCloses rest).map (fun p => (b :: p.1, p.2))
    if b = 125 then
      match rest.dropWhile isReSpace with
      | 93 :: r2 => (125 :: (rest.takeWhile isReSpace ++ [93]), r2) :: tailC
      | _ => tailC
    else tailC

/-- All matches of `\[\s*\{.*?\}\s*\]` anchored at the start of the input,
in order of increasing length (the first is the non-greedy preference). -/
def matchArrayCands : GoStr → List (GoStr × GoStr)
  | 91 :: rest =>
    let w1 := rest.takeWhile isReSpace
    (match rest.dropWhile isReSpace with
     | 123 :: r2 => (arrCloses r2).map (fun p => (91 :: (w1 ++ 123 :: p.1), p.2))
     | _ => [])
  | _ => []

/-- Semantics of `reJSONArray.FindString` (`(?is)\[\s*\{.*?\}\s*\]`): the leftmost
match, non-greedy; `none` when the regexp does not match. -/
def findJSONArray : GoStr → Option GoStr
  | [] => none
  | b :: rest =>
    match (matchArrayCands (b :: rest)).head? with
    | some p => some p.1
    | none => findJSONArray rest

/-- Case-insensitive (ASCII) prefix test, for the `(?i)` regexp flag. -/
def ciPrefixOf (pat s : GoStr) : Bool :=
  (pat.map lowerByte).isPrefixOf (s.map lowerByte)

/-- Semantics of `reJSONFence.FindStringSubmatch` capture group
(`` (?is)```json\s*(\[\s*\{.*?\}\s*\])\s*``` ``): leftmost-first — at each
occurrence of ```` ```json ```` the shortest array candidate whose tail
continues with `` \s*``` ``. -/
def fenceFind : GoStr → Option GoStr
  | [] => none
  | b :: rest =>
    if ciPrefixOf (g "```json") (b :: rest) then
      match ((matchArrayCands (((b :: rest).drop 7).dropWhile isReSpace)).filter
              (fun p => (g "```").isPrefixOf (p.2.dropWhile isReSpace))).head? with
      | some p => some p.1
      | none => fenceFind rest
    else fenceFind rest

/-- ASCII digit byte. -/
def isDigit (b : Nat) : Bool := decide (48 ≤ b ∧ b ≤ 57)

/-- One step of the quote/escape scanner state (inString, escaped): the
quote toggle uses the previous escape flag, then the escape flag is
recomputed (`escaped = (c == '\\' && !escaped)`). -/
def scanStep (p : Bool × Bool) (b : Nat) : Bool × Bool :=
  (if b = 34 ∧ p.2 = false then !p.1 else p.1, decide (b = 92 ∧ p.2 = false))

/-- Scanner state after consuming a byte string. -/
def scanState (p : Bool × Bool) (s : GoStr) : Bool × Bool := s.foldl scanStep p

/-- The digit-comma-digit-digit-digit test of the thousands-separator
scanner at the head of `b :: rest`. -/
def thousandsPatternHead (b : Nat) (rest : GoStr) : Bool :=
  isDigit b && decide (rest.getD 0 0 = 44) && isDigit (rest.getD 1 0) &&
    isDigit (rest.getD 2 0) && isDigit (rest.getD 3 0)

/-- The scanner loop of `checkThousandsSeparatorsOutsideStrings`: the
state pair mirrors the `inString`/`escaped` variables; the recursion
stops when fewer than five bytes remain (the loop guard `i < len-4`);
the pattern is checked only outside strings, with the state already
updated for the current byte, as in the source. Returns the offending
fragment (`jsonStr[i:min(i+10,len)]`). -/
def checkThousandsAux : Bool × Bool → GoStr → Option GoStr
  | _, [] => none
  | p, b :: rest =>
    if rest.length < 4 then none
    else
      if (scanStep p b).1 then checkThousandsAux (scanStep p b) rest
      else if thousandsPatternHead b rest then some ((b :: rest).take 10)
      else checkThousandsAux (scanStep p b) rest

/-- Function `checkThousandsSeparatorsOutsideStrings`: `some frag` is the error
case, `none` means no thousands separator found in a numeric context. -/
def checkThousandsSeparatorsOutsideStrings (s : GoStr) : Option GoStr :=
  checkThousandsAux (false, false) s

/-- Error cases of `validateJSONFormat`, one per `return fmt.Errorf` site. -/
inductive FmtErr
  | notObjectArray (frag : GoStr)
  | badHead (frag : GoStr)
  | rangeSymbol
  | thousandsSeparator (frag : GoStr)
deriving DecidableEq

/-- The regexp `^\[\s*\{` (`reArrayHead`). -/
def arrayHeadMatch (t : GoStr) : Bool :=
  match t with
  | b :: rest =>
    decide (b = 91) && decide ((rest.dropWhile isReSpace).head? = some 123)
  | [] => false

/-- Function `validateJSONFormat` from `decision/management.go`. -/
def validateJSONFormat (s : GoStr) : Except FmtErr Unit :=
  let trimmed := goTrimSpace s
  if ¬ arrayHeadMatch trimmed then
    if (g "[").isPrefixOf trimmed ∧ ¬ goContains (trimmed.take 20) (g "\x7b") then
      .error (.notObjectArray (trimmed.take 50))
    else
      .error (.badHead (trimmed.take 20))
  else if goContains s (g "~") then .error .rangeSymbol
  else
    match checkThousandsSeparatorsOutsideStrings s with
    | some frag => .error (.thousandsSeparator frag)
    | none => .ok ()

/-- Spec-side reading (C5 wording) of the shape rule: the trimmed
candidate starts with `[`, then arbitrary whitespace, then `{`. -/
def specArrayObjectHead (t : GoStr) : Prop :=
  ∃ w rest, t = 91 :: (w ++ 123 :: rest) ∧ ∀ b ∈ w, isReSpace b = true

/-- Spec-side reading (C5 wording) of the thousands-separator rule: some
scan position i outside a string (tracking quote/escape state through
the bytes up to and including i) reads digit, comma, digit, digit,
digit, the pattern lying fully inside the scanned range. -/
def specThousandsViolation (p : Bool × Bool) (s : GoStr) : Prop :=
  ∃ i, i + 4 < s.length ∧ (scanState p (s.take (i + 1))).1 = false ∧
    isDigit (s.getD i 0) = true ∧ s.getD (i + 1) 0 = 44 ∧
    isDigit (s.getD (i + 2) 0) = true ∧ isDigit (s.getD (i + 3) 0) = true ∧
    isDigit (s.getD (i + 4) 0) = true

/-- Errors of `extractDecisions`, one per `return nil, fmt.Errorf` site. -/
inductive ParseErr
  | formatInvalid (e : FmtErr) (content : GoStr)
  | unmarshalFailed (content : GoStr)
deriving DecidableEq

/-- The normalized search text `jsonPart` built by `extractDecisions`
before any JSON candidate is looked for (clean → trim → fix full-width →
prefer the `<decision>` tag content → fix again). -/
def jsonPartOf (response : GoStr) : GoStr :=
  let s := fixMissingQuotes (goTrimSpace (removeInvisibleRunes response))
  let jsonPart0 :=
    match decisionTagContent s with
    | some inner => goTrimSpace inner
    | none => s
  fixMissingQuotes jsonPart0

/-- The safe-fallback decision built when the AI output contains no JSON
candidate at all: `{symbol: "ALL", action: "wait"}` with the reasoning
message `"模型未输出结构化JSON决策，进入安全等待；摘要：<summary>"`. -/
def fallbackDecision (cotSummary : GoStr) : Decision :=
  { symbol := g "ALL", action := g "wait",
    reasoning := g "模型未输出结构化JSON决策，进入安全等待；摘要：" ++ cotSummary }

/-- Validate + unmarshal one extracted JSON candidate (shared tail of both
extraction branches). `unmarshal` stands for `json.Unmarshal`. -/
def parseCandidate (unmarshal : GoStr → Option (List Decision))
    (jsonContent : GoStr) : Except ParseErr (List Decision) :=
  let c := fixMissingQuotes (compactArrayOpen jsonContent)
  match validateJSONFormat c with
  | .error e => .error (.formatInvalid e c)
  | .ok _ =>
    match unmarshal c with
    | none => .error (.unmarshalFailed c)
    | some ds => .ok ds

/-- Function `extractDecisions` from `decision/management.go`. `json.Unmarshal` is
an external collaborator passed as `unmarshal` (`none` = parse failure). -/
def extractDecisions (unmarshal : GoStr → Option (List Decision))
    (response : GoStr) : Except ParseErr (List Decision) :=
  let jsonPart := jsonPartOf response
  match fenceFind jsonPart with
  | some m => parseCandidate unmarshal (goTrimSpace m)
  | none =>
    let jsonContent := goTrimSpace ((findJSONArray jsonPart).getD [])
    if jsonContent = [] then
      let cotSummary :=
        if jsonPart.length > 240 then jsonPart.take 240 ++ g "..." else jsonPart
      .ok [fallbackDecision cotSummary]
    else
      parseCandidate unmarshal jsonContent

/-! ## Decision validator (`decision/enhanced_validator.go`) -/

/-- Validation messages, one constructor per `fmt.Sprintf`/`fmt.Errorf`
site of the enhanced validator, carrying the formatted arguments. -/
inductive Msg
  | invalidAction (a : GoStr)
  | emptySymbol
  | missingMarketData (symbol : GoStr)
  | invalidMarketPrice
  | riskExceeded (loss pct maxAllowed : ℚ)
  | highRiskWarning (pct : ℚ)
  | lowRiskWarning (pct : ℚ)
  | positionTooSmall (v minSize : ℚ)
  | positionTooLarge (v maxSize : ℚ)
  | positionOverEquity
  | positionTinyWarning
  | stopTooClose (pct : ℚ)
  | stopTooFar (pct : ℚ)
  | longStopNotBelow
  | shortStopNotAbove
  | rewardRelLow (r : ℚ)
  | longTPNotAbove
  | shortTPNotBelow
  | leverageExceeded (lv maxLv : ℤ)
  | leverageBelowOne
  | highLeverageWarning
  | increasePosition
  | adjustStopLoss (p : ℚ)
  | lowConfidence
deriving DecidableEq

/-- Struct `ValidationResult`. -/
structure ValidationResult where
  isValid : Bool
  errors : List Msg
  warnings : List Msg
  suggestions : List Msg
  riskLevel : GoStr
  riskPercent : ℚ
deriving DecidableEq

/-- Struct `EnhancedValidator`; the `MarketData` map is an association
list keyed by symbol. -/
structure EnhancedValidator where
  accountEquity : ℚ
  btcEthLeverage : ℤ
  altcoinLeverage : ℤ
  marketData : List (GoStr × MarketData) := []
deriving DecidableEq

/-- Lookup in the validator's market-data map. -/
def lookupMarket (ev : EnhancedValidator) (symbol : GoStr) : Option MarketData :=
  (ev.marketData.find? (fun p => p.1 = symbol)).map (·.2)

/-- The nine valid action strings. -/
def validActions : List GoStr :=
  [g "open_long", g "open_short", g "close_long", g "close_short",
   g "update_stop_loss", g "update_take_profit", g "partial_close",
   g "hold", g "wait"]

def isValidAction (a : GoStr) : Bool := validActions.contains a

/-- Function `basicValidation`: the action must be one of the nine valid
strings and the symbol must be non-empty (for every action). -/
def basicValidation (d : Decision) : Except Msg Unit :=
  if ¬ isValidAction d.action then .error (.invalidAction d.action)
  else if d.symbol = [] then .error .emptySymbol
  else .ok ()

/-- The potential loss computed by `validateRisk`:
`quantity = position_size / current_price` times the signed directional
price-to-stop difference (no absolute value in the source). -/
def directionalLoss (d : Decision) (md : MarketData) : ℚ :=
  if d.action = g "open_long" then
    d.positionSizeUSD / md.currentPrice * (md.currentPrice - d.stopLoss)
  else
    d.positionSizeUSD / md.currentPrice * (d.stopLoss - md.currentPrice)

/-- Function `validateRisk`: potential loss and risk percent; fatal when the
potential loss exceeds 2% of equity. The loss is the signed directional
difference (no absolute value in the source). -/
def validateRisk (ev : EnhancedValidator) (d : Decision)
    (result : ValidationResult) : ValidationResult :=
  match lookupMarket ev d.symbol with
  | none =>
    { result with errors := result.errors ++ [.missingMarketData d.symbol],
                  isValid := false }
  | some md =>
    if md.currentPrice ≤ 0 then
      { result with errors := result.errors ++ [.invalidMarketPrice],
                    isValid := false }
    else
      let potentialLossUSD := directionalLoss d md
      let riskPercent := potentialLossUSD / ev.accountEquity * 100
      let r1 := { result with riskPercent := riskPercent }
      let maxAllowedRisk := ev.accountEquity * 0.02
      let r2 :=
        if potentialLossUSD > maxAllowedRisk then
          { r1 with
            errors := r1.errors ++ [.riskExceeded potentialLossUSD riskPercent maxAllowedRisk],
            isValid := false }
        else r1
      if riskPercent > 1.2 then
        { r2 with warnings := r2.warnings ++ [.highRiskWarning riskPercent] }
      else if riskPercent < 0.5 then
        { r2 with warnings := r2.warnings ++ [.lowRiskWarning riskPercent] }
      else r2

/-- Tiered minimum-position-size rules (`positionSizeConfig`). -/
structure PositionSizeRule where
  minEquity : ℚ
  minSize : ℚ
  maxSize : ℚ
deriving DecidableEq

def absoluteMinimum : ℚ := 12
def standardBTCETH : ℚ := 60

def btcEthSizeRules : List PositionSizeRule :=
  [⟨0, absoluteMinimum, absoluteMinimum⟩,
   ⟨20, absoluteMinimum, standardBTCETH⟩,
   ⟨100, standardBTCETH, standardBTCETH⟩]

def altcoinSizeRules : List PositionSizeRule :=
  [⟨0, absoluteMinimum, absoluteMinimum⟩]

/-- Map `symbolSizeRules` (BTCUSDT/ETHUSDT tiered, altcoin fixed). -/
def symbolSizeRules (symbol : GoStr) : List PositionSizeRule :=
  if symbol = g "BTCUSDT" ∨ symbol = g "ETHUSDT" then btcEthSizeRules
  else altcoinSizeRules

/-- Loop body of `calculateMinPositionSize`: find the equity tier and
interpolate linearly inside it. The final fixed tiers return their fixed
size; the trailing default is `absoluteMinimum`. -/
def calcMinFromRules (accountEquity : ℚ) : List PositionSizeRule → ℚ
  | [] => absoluteMinimum
  | r :: rest =>
    match rest with
    | [] =>
      if r.minSize = r.maxSize then r.minSize else r.minSize
    | next :: _ =>
      if accountEquity < next.minEquity then
        if r.minSize = r.maxSize then r.minSize
        else
          r.minSize + (r.maxSize - r.minSize) *
            (accountEquity - r.minEquity) / (next.minEquity - r.minEquity)
      else calcMinFromRules accountEquity rest

/-- Function `calculateMinPositionSize`. -/
def calculateMinPositionSize (symbol : GoStr) (accountEquity : ℚ) : ℚ :=
  calcMinFromRules accountEquity (symbolSizeRules symbol)

/-- Method `getMaxPositionValue`: majors may use 1.5x equity, altcoins 0.75x. -/
def getMaxPositionValue (ev : EnhancedValidator) (symbol : GoStr) : ℚ :=
  if symbol = g "BTCUSDT" ∨ symbol = g "ETHUSDT" then ev.accountEquity * 1.5
  else ev.accountEquity * 0.75

/-- Function `validatePositionSize`. -/
def validatePositionSize (ev : EnhancedValidator) (d : Decision)
    (result : ValidationResult) : ValidationResult :=
  let minSize := calculateMinPositionSize d.symbol ev.accountEquity
  let r1 :=
    if d.positionSizeUSD < minSize then
      { result with
        errors := result.errors ++ [.positionTooSmall d.positionSizeUSD minSize],
        isValid := false }
    else result
  let maxPositionValue := getMaxPositionValue ev d.symbol
  let r2 :=
    if d.positionSizeUSD > maxPositionValue then
      { r1 with
        errors := r1.errors ++ [.positionTooLarge d.positionSizeUSD maxPositionValue],
        isValid := false }
    else r1
  let positionFrac := d.positionSizeUSD / ev.accountEquity
  if positionFrac > 1 then
    { r2 with warnings := r2.warnings ++ [.positionOverEquity] }
  else if positionFrac < 0.01 then
    { r2 with warnings := r2.warnings ++ [.positionTinyWarning] }
  else r2

/-- Function `validateStopLoss`: side sanity is fatal, distance sanity is
advisory only. -/
def validateStopLoss (ev : EnhancedValidator) (d : Decision)
    (result : ValidationResult) : ValidationResult :=
  match lookupMarket ev d.symbol with
  | none => result
  | some md =>
    let currentPrice := md.currentPrice
    let stopLossDistance := |d.stopLoss - currentPrice| / currentPrice
    let r1 :=
      if stopLossDistance < 0.005 then
        { result with warnings := result.warnings ++ [.stopTooClose (stopLossDistance * 100)] }
      else result
    let r2 :=
      if stopLossDistance > 0.08 then
        { r1 with warnings := r1.warnings ++ [.stopTooFar (stopLossDistance * 100)] }
      else r1
    let r3 :=
      if d.action = g "open_long" ∧ d.stopLoss ≥ currentPrice then
        { r2 with errors := r2.errors ++ [.longStopNotBelow], isValid := false }
      else r2
    if d.action = g "open_short" ∧ d.stopLoss ≤ currentPrice then
      { r3 with errors := r3.errors ++ [.shortStopNotAbove], isValid := false }
    else r3

/-- Function `validateTakeProfit`. -/
def validateTakeProfit (ev : EnhancedValidator) (d : Decision)
    (result : ValidationResult) : ValidationResult :=
  match lookupMarket ev d.symbol with
  | none => result
  | some md =>
    let currentPrice := md.currentPrice
    let riskD :=
      if d.action = g "open_long" then currentPrice - d.stopLoss
      else d.stopLoss - currentPrice
    let rewardD :=
      if d.action = g "open_long" then d.takeProfit - currentPrice
      else currentPrice - d.takeProfit
    let r1 :=
      if riskD > 0 then
        if rewardD / riskD < 1.5 then
          { result with warnings := result.warnings ++ [.rewardRelLow (rewardD / riskD)] }
        else result
      else result
    let r2 :=
      if d.action = g "open_long" ∧ d.takeProfit ≤ currentPrice then
        { r1 with errors := r1.errors ++ [.longTPNotAbove], isValid := false }
      else r1
    if d.action = g "open_short" ∧ d.takeProfit ≥ currentPrice then
      { r2 with errors := r2.errors ++ [.shortTPNotBelow], isValid := false }
    else r2

/-- Symbol-class leverage cap used by `validateLeverage`: majors use the
BTC/ETH limit, everything else the altcoin limit. -/
def maxLeverageFor (ev : EnhancedValidator) (symbol : GoStr) : ℤ :=
  if symbol = g "BTCUSDT" ∨ symbol = g "ETHUSDT" then ev.btcEthLeverage
  else ev.altcoinLeverage

/-- Go `int(x)` conversion from `float64`: truncation toward zero. -/
def goInt (q : ℚ) : ℤ := if q < 0 then ⌈q⌉ else ⌊q⌋

/-- Function `validateLeverage`: fatal when above the symbol-class cap or
below 1; the decision itself is never modified. -/
def validateLeverage (ev : EnhancedValidator) (d : Decision)
    (result : ValidationResult) : ValidationResult :=
  let maxLeverage := maxLeverageFor ev d.symbol
  let r1 :=
    if d.leverage > maxLeverage then
      { result with
        errors := result.errors ++ [.leverageExceeded d.leverage maxLeverage],
        isValid := false }
    else result
  let r2 :=
    if d.leverage < 1 then
      { r1 with errors := r1.errors ++ [.leverageBelowOne], isValid := false }
    else r1
  if d.leverage > goInt ((maxLeverage : ℚ) * 0.8) then
    { r2 with warnings := r2.warnings ++ [.highLeverageWarning] }
  else r2

/-- Model of Go's `(d *Decision, result *ValidationResult)` in-out pair for
the leverage check: the source writes only to `result`, never to `d`. -/
def validateLeverageInOut (ev : EnhancedValidator)
    (p : Decision × ValidationResult) : Decision × ValidationResult :=
  (p.1, validateLeverage ev p.1 p.2)

/-- Method `getATR`: 4h ATR14 first, then 3m ATR14, then the last daily
ATR14 value. -/
def getATR (ev : EnhancedValidator) (symbol : GoStr) : ℚ :=
  match lookupMarket ev symbol with
  | none => 0
  | some md =>
    match md.longerTermContext with
    | some ltc =>
      if ltc.atr14 > 0 then ltc.atr14
      else getATRIntraday md
    | none => getATRIntraday md
where
  getATRDaily (md : MarketData) : ℚ :=
    match md.dailyContext with
    | some dc =>
      match dc.atr14Values.getLast? with
      | some v => v
      | none => 0
    | none => 0
  getATRIntraday (md : MarketData) : ℚ :=
    match md.intradaySeries with
    | some is =>
      if is.atr14 > 0 then is.atr14
      else getATRDaily md
    | none => getATRDaily md

/-- Function `generateSuggestions` (advisory only; division by a zero stop
distance follows IEEE semantics: `x/0 > 0.1` is true for `x > 0` and the
`0/0` NaN compares false). -/
def generateSuggestions (ev : EnhancedValidator) (d : Decision)
    (result : ValidationResult) : ValidationResult :=
  if result.errors ≠ [] then result
  else
    let r1 :=
      if result.riskPercent < 0.8 then
        { result with suggestions := result.suggestions ++ [.increasePosition] }
      else result
    let r2 :=
      match lookupMarket ev d.symbol with
      | none => r1
      | some md =>
        let atr := getATR ev d.symbol
        if atr > 0 then
          let currentPrice := md.currentPrice
          let suggestedStopLoss :=
            if d.action = g "open_short" then currentPrice + atr * 0.5
            else currentPrice - atr * 0.5
          let currentDistance := |d.stopLoss - currentPrice|
          let suggestedDistance := |suggestedStopLoss - currentPrice|
          let far :=
            if currentDistance = 0 then suggestedDistance ≠ 0
            else |currentDistance - suggestedDistance| / currentDistance > 0.1
          if far then
            { r1 with suggestions := r1.suggestions ++ [.adjustStopLoss suggestedStopLoss] }
          else r1
        else r1
    if d.confidence < 70 then
      { r2 with suggestions := r2.suggestions ++ [.lowConfidence] }
    else r2

/-- Function `assessRiskLevel`. -/
def assessRiskLevel (result : ValidationResult) : ValidationResult :=
  if result.isValid = false then { result with riskLevel := g "invalid" }
  else if result.riskPercent > 1.2 then { result with riskLevel := g "high" }
  else if result.riskPercent > 0.8 then { result with riskLevel := g "medium" }
  else { result with riskLevel := g "low" }

/-- The freshly initialized `ValidationResult` of `ValidateDecision`. -/
def newValidationResult : ValidationResult :=
  { isValid := true, errors := [], warnings := [], suggestions := [],
    riskLevel := g "low", riskPercent := 0 }

/-- Method `ValidateDecision` of the enhanced validator: basic check, then
for open decisions the risk pipeline, then suggestions and banding. -/
def ValidateDecision (ev : EnhancedValidator) (d : Decision) : ValidationResult :=
  let result1 :=
    match basicValidation d with
    | .error m =>
      { newValidationResult with errors := newValidationResult.errors ++ [m],
                                 isValid := false }
    | .ok _ => newValidationResult
  let result2 :=
    if d.action = g "open_long" ∨ d.action = g "open_short" then
      validateLeverage ev d (validateTakeProfit ev d (validateStopLoss ev d
        (validatePositionSize ev d (validateRisk ev d result1))))
    else result1
  assessRiskLevel (generateSuggestions ev d result2)

/-! ## Batch validation (`decision/management.go`) -/

/-- Error cases of `validateDecisionWithMarketData`, one per
`return fmt.Errorf` site. -/
inductive DecisionErr
  | invalidAction (a : GoStr)
  | marketDataUnavailable (symbol : GoStr) (e : GoStr)
  | validationFailed (riskLevel : GoStr) (riskPercent : ℚ) (errors : List Msg)
  | newStopLossNonpositive (v : ℚ)
  | newTakeProfitNonpositive (v : ℚ)
  | closePercentageOutOfRange (v : ℚ)
  | closePercentageTooSmall (v : ℚ)
deriving DecidableEq

/-- The action-specific field checks that follow the open-position branch
in `validateDecisionWithMarketData` (update stop/take-profit, partial
close). -/
def actionFieldChecks (d : Decision) : Except DecisionErr Unit :=
  if d.action = g "update_stop_loss" ∧ d.newStopLoss ≤ 0 then
    .error (.newStopLossNonpositive d.newStopLoss)
  else if d.action = g "update_take_profit" ∧ d.newTakeProfit ≤ 0 then
    .error (.newTakeProfitNonpositive d.newTakeProfit)
  else if d.action = g "partial_close" ∧ (d.closePercentage ≤ 0 ∨ d.closePercentage > 100) then
    .error (.closePercentageOutOfRange d.closePercentage)
  else if d.action = g "partial_close" ∧ d.closePercentage < 5 then
    .error (.closePercentageTooSmall d.closePercentage)
  else .ok ()

/-- Function `validateDecisionWithMarketData`. `marketGet` models the live
`market.Get` collaborator used when no mock data is supplied; the V6.0
"hard physical filters" in the source are compiled out (`if false`) and do
not appear. `currentPositions` is received but never read by any check. -/
def validateDecisionWithMarketData
    (marketGet : GoStr → Except GoStr MarketData)
    (d : Decision) (accountEquity : ℚ) (btcEthLeverage altcoinLeverage : ℤ)
    (currentPositions : List PositionInfo)
    (mockMarketData : Option MarketData) : Except DecisionErr Unit :=
  if ¬ isValidAction d.action then .error (.invalidAction d.action)
  else if d.action = g "open_long" ∨ d.action = g "open_short" then
    match (match mockMarketData with
           | some md => Except.ok md
           | none => marketGet d.symbol) with
    | .error e => .error (.marketDataUnavailable d.symbol e)
    | .ok md =>
      let validator : EnhancedValidator :=
        { accountEquity := accountEquity, btcEthLeverage := btcEthLeverage,
          altcoinLeverage := altcoinLeverage, marketData := [(d.symbol, md)] }
      let result := ValidateDecision validator d
      if result.isValid = false then
        .error (.validationFailed result.riskLevel result.riskPercent result.errors)
      else actionFieldChecks d
  else actionFieldChecks d

/-- Function `validateDecision` (no mock data: live market fetch). -/
def validateDecision (marketGet : GoStr → Except GoStr MarketData)
    (d : Decision) (accountEquity : ℚ) (btcEthLeverage altcoinLeverage : ℤ)
    (currentPositions : List PositionInfo) : Except DecisionErr Unit :=
  validateDecisionWithMarketData marketGet d accountEquity btcEthLeverage
    altcoinLeverage currentPositions none

/-- A batch validation error: the 1-based index of the first failing
decision together with its error (`决策 #%d 验证失败: %w`). -/
structure BatchErr where
  index : ℕ
  err : DecisionErr
deriving DecidableEq

/-- Loop of `validateDecisions`, carrying the 0-based position `i`. -/
def validateDecisionsFrom (marketGet : GoStr → Except GoStr MarketData)
    (accountEquity : ℚ) (btcEthLeverage altcoinLeverage : ℤ)
    (currentPositions : List PositionInfo) (i : ℕ) :
    List Decision → Except BatchErr Unit
  | [] => .ok ()
  | d :: rest =>
    match validateDecision marketGet d accountEquity btcEthLeverage
        altcoinLeverage currentPositions with
    | .error e => .error ⟨i + 1, e⟩
    | .ok _ =>
      validateDecisionsFrom marketGet accountEquity btcEthLeverage
        altcoinLeverage currentPositions (i + 1) rest

/-- Function `validateDecisions`: fail-fast batch validation. -/
def validateDecisions (marketGet : GoStr → Except GoStr MarketData)
    (decisions : List Decision) (accountEquity : ℚ)
    (btcEthLeverage altcoinLeverage : ℤ)
    (currentPositions : List PositionInfo) : Except BatchErr Unit :=
  validateDecisionsFrom marketGet accountEquity btcEthLeverage
    altcoinLeverage currentPositions 0 decisions

/-! ## Risk configuration (`decision/risk_config.go`, `config` package) -/

/-- Struct `RiskConfig` (the canonical `config.RiskConfig`; the
`decision` package re-exports it). The `RRThreshold` fields are the
`BreakevenRRRatio`/`TrailingRRRatio` fields of the source. -/
structure RiskConfig where
  maxSingleTradeRiskPct : ℚ
  defaultStopLossATRMultiplier : ℚ
  defaultStopLossPct : ℚ
  maxStopLossPct : ℚ
  breakevenRRThreshold : ℚ
  trailingRRThreshold : ℚ
  maxDailyLossPct : ℚ
  maxDrawdownPct : ℚ
  maxNotionalBTC : ℚ
  maxNotionalAlt : ℚ
deriving DecidableEq

/-- Modelled from the spec: the default per-symbol-class notional cap for
majors. The `config` package source carrying the numeric default is not
under src/; the spec's test vector fixes the BTC cap at 80 USDT. -/
def maxNotionalBTCDefault : ℚ := 80

/-- Modelled from the spec: the default altcoin notional cap. The `config`
package source carrying the numeric default is not under src/; the
repository's validator test comments state 60 USDT. -/
def maxNotionalAltDefault : ℚ := 60

/-- Function `DefaultRiskConfig`: numeric values from
`decision/risk_config.go`, notional caps from the spec-modelled defaults. -/
def DefaultRiskConfig : RiskConfig :=
  { maxSingleTradeRiskPct := 0.02
    defaultStopLossATRMultiplier := 2.5
    defaultStopLossPct := 0.025
    maxStopLossPct := 0.025
    breakevenRRThreshold := 1.0
    trailingRRThreshold := 2.0
    maxDailyLossPct := 5.0
    maxDrawdownPct := 10.0
    maxNotionalBTC := maxNotionalBTCDefault
    maxNotionalAlt := maxNotionalAltDefault }

/-! ## Stop-loss lifecycle check (`decision/management.go`) -/

/-- Reasons attached to a management action, one constructor per
`Reason:` string / `fmt.Sprintf` site, carrying the formatted R:R value. -/
inductive MAReason
  | noReason
  | emergencyMissingSL
  | riskRemoval (rr : ℚ)
  | profitLock (rr : ℚ)
deriving DecidableEq

/-- Struct `ManagementAction`. -/
structure ManagementAction where
  action : GoStr
  newPrice : ℚ
  reason : MAReason
deriving DecidableEq

/-- The zero-valued `ManagementAction{Action: "none"}`. -/
def noneAction : ManagementAction := ⟨g "none", 0, .noReason⟩

/-- The 4h ATR14 value visible to the stop-loss lifecycle check (0 when
market data or the longer-term context is missing). -/
def longerATR14 (marketData : Option MarketData) : ℚ :=
  match marketData with
  | some md =>
    match md.longerTermContext with
    | some ltc => ltc.atr14
    | none => 0
  | none => 0

/-- The ATR used by the emergency-stop branch: the 4h ATR14, degraded to
3% of the mark price when it is 0. -/
def emergencyATR (pos : PositionInfo) (marketData : Option MarketData) : ℚ :=
  if longerATR14 marketData = 0 then pos.markPrice * 0.03
  else longerATR14 marketData

/-- Function `CheckManagementAction`: emergency stop placement when the
current stop is 0, otherwise breakeven / trailing adjustments driven by
the R:R multiple, requiring the 4h ATR14. -/
def CheckManagementAction (pos : PositionInfo) (currentSL : ℚ)
    (marketData : Option MarketData) : ManagementAction :=
  if currentSL = 0 then
    ⟨g "update_stop_loss",
     (if pos.side = g "long" then pos.entryPrice - 2.5 * emergencyATR pos marketData
      else pos.entryPrice + 2.5 * emergencyATR pos marketData),
     .emergencyMissingSL⟩
  else
    match marketData with
    | none => noneAction
    | some md =>
      match md.longerTermContext with
      | none => noneAction
      | some ltc =>
        if ltc.atr14 = 0 then noneAction
        else
          let atr := ltc.atr14
          let initialRisk0 := |pos.entryPrice - currentSL|
          let initialRisk := if initialRisk0 = 0 then atr else initialRisk0
          let profitDist :=
            if pos.side = g "long" then pos.markPrice - pos.entryPrice
            else pos.entryPrice - pos.markPrice
          let rr := profitDist / initialRisk
          let isBreakeven :=
            (pos.side = g "long" ∧ currentSL ≥ pos.entryPrice) ∨
            (pos.side = g "short" ∧ currentSL ≤ pos.entryPrice)
          if rr ≥ 1 ∧ ¬ isBreakeven then
            let buffer := pos.entryPrice * 0.001
            let newSL :=
              if pos.side = g "long" then pos.entryPrice + buffer
              else pos.entryPrice - buffer
            ⟨g "update_stop_loss", newSL, .riskRemoval rr⟩
          else if rr ≥ 2 then
            if pos.side = g "long" then
              let target := pos.entryPrice + 1 * initialRisk
              if currentSL < target then ⟨g "update_stop_loss", target, .profitLock rr⟩
              else noneAction
            else
              let target := pos.entryPrice - 1 * initialRisk
              if currentSL > target then ⟨g "update_stop_loss", target, .profitLock rr⟩
              else noneAction
          else noneAction

/-! ## Position-sizing engine (`trader` package, src/unnamed/part_006).
src/unnamed/part_006 carries the current version of
`trader.ComputePositionSize` (its final respect-smaller-suggestion step at
lines 170-176 and the matching unit test); `src/trader/position_size.go`
is an earlier snapshot of the same function without that step. -/

/-- Struct `AutoTraderConfig` restricted to the fields the sizing engine
reads. -/
structure AutoTraderConfig where
  btcEthLeverage : ℤ := 0
  altcoinLeverage : ℤ := 0
deriving DecidableEq

/-- Errors of `ComputePositionSize`, one per `return ... fmt.Errorf` site
(`nil` decision/market cannot arise in the embedding). -/
inductive SizingErr
  | getBalanceFailed (e : GoStr)
  | noAvailableBalance (v : ℚ)
  | invalidPrice (p : ℚ)
  | longStopNotBelowEntry
  | shortStopNotAboveEntry
  | belowMinNotional (v : ℚ)
  | quantityNonpositive
deriving DecidableEq

/-- The absolute exchange minimum notional (`const minNotional = 10.0`). -/
def minNotional : ℚ := 10

/-- Symbol-class test used twice by the sizing engine:
`strings.Contains(strings.ToUpper(symbol), "BTC"/"ETH")`. -/
def isMajorSymbol (symbol : GoStr) : Bool :=
  goContains (goToUpper symbol) (g "BTC") || goContains (goToUpper symbol) (g "ETH")

/-- The closing lines of the safe-ceiling computation: the explicit
minimum-notional failure (`final notional ... is below minimum notional`)
followed by `finalNotional = math.Max(0, finalNotional)`. -/
def ceilingGate (fitted price riskUSD : ℚ) : Except SizingErr (ℚ × ℚ × ℚ) :=
  if fitted < minNotional then .error (.belowMinNotional fitted)
  else .ok (max 0 fitted, price, riskUSD)

/-- The price used by the sizing engine: the entry price when positive,
otherwise the current market price. -/
def sizingPrice (d : Decision) (mkt : MarketData) : ℚ :=
  if d.entryPrice > 0 then d.entryPrice else mkt.currentPrice

/-- The leverage used by the sizing engine, with the BTC/ETH vs altcoin
fallback and a final fallback to 1. -/
def sizingLeverage (atCfg : AutoTraderConfig) (d : Decision) : ℤ :=
  if d.leverage ≤ 0 then
    if (if isMajorSymbol d.symbol then atCfg.btcEthLeverage else atCfg.altcoinLeverage) ≤ 0
    then 1
    else (if isMajorSymbol d.symbol then atCfg.btcEthLeverage else atCfg.altcoinLeverage)
  else d.leverage

/-- The raw stop-loss fraction, validated against the side
(`side == "SHORT"` iff the lowered action contains "short"); 0 when no
stop is supplied. -/
def sizingStopPct0 (d : Decision) (price : ℚ) : Except SizingErr ℚ :=
  if d.stopLoss > 0 then
    if goContains (goToLower d.action) (g "short") then
      if price ≥ d.stopLoss then .error .shortStopNotAboveEntry
      else .ok ((d.stopLoss - price) / price)
    else
      if price ≤ d.stopLoss then .error .longStopNotBelowEntry
      else .ok ((price - d.stopLoss) / price)
  else .ok 0

/-- The effective stop fraction, after the `DefaultStopLossPct` fallback
and the final 1% guard. -/
def sizingStopPct (cfg : RiskConfig) (stopPct0 : ℚ) : ℚ :=
  if (if stopPct0 ≤ 0 then cfg.defaultStopLossPct else stopPct0) ≤ 0 then 0.01
  else (if stopPct0 ≤ 0 then cfg.defaultStopLossPct else stopPct0)

/-- The per-trade risk value in USD: the config budget, lowered to the
AI's `RiskUSD` when that is positive and smaller. -/
def sizingRiskUSD (cfg : RiskConfig) (available : ℚ) (d : Decision) : ℚ :=
  if d.riskUSD > 0 ∧ d.riskUSD < available * cfg.maxSingleTradeRiskPct then d.riskUSD
  else available * cfg.maxSingleTradeRiskPct

/-- The symbol-class notional cap used by the sizing engine. -/
def sizingMaxNotional (cfg : RiskConfig) (d : Decision) : ℚ :=
  if isMajorSymbol d.symbol then cfg.maxNotionalBTC else cfg.maxNotionalAlt

/-- Risk-derived notional capped by the symbol-class maximum. -/
def sizingCapped (cfg : RiskConfig) (available : ℚ) (d : Decision)
    (stopPct0 : ℚ) : ℚ :=
  if sizingMaxNotional cfg d > 0 ∧
     (if sizingStopPct cfg stopPct0 > 0 then
        sizingRiskUSD cfg available d / sizingStopPct cfg stopPct0 else 0) >
       sizingMaxNotional cfg d
  then sizingMaxNotional cfg d
  else (if sizingStopPct cfg stopPct0 > 0 then
          sizingRiskUSD cfg available d / sizingStopPct cfg stopPct0 else 0)

/-- Capped notional further shrunk so the required margin fits the
available balance (with the 1% headroom). -/
def sizingFitted (cfg : RiskConfig) (atCfg : AutoTraderConfig)
    (available : ℚ) (d : Decision) (stopPct0 : ℚ) : ℚ :=
  if sizingCapped cfg available d stopPct0 / (sizingLeverage atCfg d : ℚ) > available
  then available * (sizingLeverage atCfg d : ℚ) * 0.99
  else sizingCapped cfg available d stopPct0

/-- The safe-ceiling prefix of `ComputePositionSize` (everything up to and
including `finalNotional = math.Max(0, finalNotional)` at line 168 of
src/unnamed/part_006, i.e. before the AI suggestion is considered).
Returns (ceiling, price, riskUSD). `balance` models the
`at.trader.GetBalance()` collaborator, already projected onto its
`availableBalance` entry (0 when the key is absent). -/
def computeSafeCeiling (cfg : RiskConfig) (atCfg : AutoTraderConfig)
    (balance : Except GoStr ℚ) (d : Decision) (mkt : MarketData) :
    Except SizingErr (ℚ × ℚ × ℚ) :=
  match balance with
  | .error e => .error (.getBalanceFailed e)
  | .ok available =>
    if available ≤ 0 then .error (.noAvailableBalance available)
    else if sizingPrice d mkt ≤ 0 then .error (.invalidPrice (sizingPrice d mkt))
    else
      match sizingStopPct0 d (sizingPrice d mkt) with
      | .error e => .error e
      | .ok stopPct0 =>
        ceilingGate (sizingFitted cfg atCfg available d stopPct0)
          (sizingPrice d mkt) (sizingRiskUSD cfg available d)

/-- The respect-smaller-suggestion step (src/unnamed/part_006 lines
170-176): the AI may shrink the notional, never grow it. -/
def applySuggestion (d : Decision) (ceiling : ℚ) : ℚ :=
  if d.suggestedPositionSizeUSD > 0 ∧ d.suggestedPositionSizeUSD < ceiling then
    d.suggestedPositionSizeUSD
  else ceiling

/-- Function `ComputePositionSize` (src/unnamed/part_006): the safe
ceiling, then the respect-smaller-suggestion step of lines 170-176, then
the quantity. Returns (notional, quantity, appliedRiskUSD). -/
def ComputePositionSize (cfg : RiskConfig) (atCfg : AutoTraderConfig)
    (balance : Except GoStr ℚ) (d : Decision) (mkt : MarketData) :
    Except SizingErr (ℚ × ℚ × ℚ) :=
  match computeSafeCeiling cfg atCfg balance d mkt with
  | .error e => .error e
  | .ok (ceiling, price, riskUSD) =>
    if applySuggestion d ceiling / price ≤ 0 then .error .quantityNonpositive
    else .ok (applySuggestion d ceiling, applySuggestion d ceiling / price, riskUSD)

/-! ## Theorems -/

/-- Inversion for the minimum-notional gate in the success case. -/
theorem ceilingGate_ok_inv {f p r c p2 r2 : ℚ}
    (h : ceilingGate f p r = .ok (c, p2, r2)) : minNotional ≤ c ∧ p2 = p := by
  unfold ceilingGate at h
  split at h
  · exact Except.noConfusion h
  · rename_i hge
    injection h with h'
    injection h' with h1 hrest
    injection hrest with h2 h3
    refine ⟨?_, h2.symm⟩
    rw [← h1]
    exact le_trans (le_of_not_lt hge) (le_max_right 0 f)

/-- Inversion for the minimum-notional gate in the failure case. -/
theorem ceilingGate_error_inv {f p r v : ℚ}
    (h : ceilingGate f p r = .error (.belowMinNotional v)) : v < minNotional := by
  unfold ceilingGate at h
  split at h
  · rename_i hlt
    injection h with h'
    injection h' with h''
    rw [h''] at hlt
    exact hlt
  · exact Except.noConfusion h

/-- Inversion for a successful safe-ceiling computation: the price used is
positive and the ceiling passed the minimum-notional gate. -/
theorem computeSafeCeiling_ok_bounds (cfg : RiskConfig) (atCfg : AutoTraderConfig)
    (balance : Except GoStr ℚ) (d : Decision) (mkt : MarketData)
    (c price riskUSD : ℚ)
    (hc : computeSafeCeiling cfg atCfg balance d mkt = .ok (c, price, riskUSD)) :
    0 < price ∧ minNotional ≤ c := by
  unfold computeSafeCeiling at hc
  split at hc
  · exact Except.noConfusion hc
  · split at hc
    · exact Except.noConfusion hc
    · split at hc
      · exact Except.noConfusion hc
      · rename_i hprice
        split at hc
        · exact Except.noConfusion hc
        · obtain ⟨hmin, hpeq⟩ := ceilingGate_ok_inv hc
          refine ⟨?_, hmin⟩
          rw [hpeq]
          exact lt_of_not_le hprice

/-- C1: for every open-position decision processed by the sizing engine,
a positive AI suggestion strictly below the computed safe ceiling is
returned exactly; a suggestion above the ceiling is ignored in favour of
the ceiling. -/
theorem computePositionSize_respects_smaller_suggestion
    (cfg : RiskConfig) (atCfg : AutoTraderConfig) (balance : Except GoStr ℚ)
    (d : Decision) (mkt : MarketData) (c price riskUSD : ℚ)
    (hc : computeSafeCeiling cfg atCfg balance d mkt = .ok (c, price, riskUSD)) :
    (0 < d.suggestedPositionSizeUSD → d.suggestedPositionSizeUSD < c →
      ComputePositionSize cfg atCfg balance d mkt =
        .ok (d.suggestedPositionSizeUSD, d.suggestedPositionSizeUSD / price, riskUSD)) ∧
    (c < d.suggestedPositionSizeUSD →
      ComputePositionSize cfg atCfg balance d mkt = .ok (c, c / price, riskUSD)) := by
  obtain ⟨hp, hmin⟩ := computeSafeCeiling_ok_bounds cfg atCfg balance d mkt c price riskUSD hc
  unfold ComputePositionSize
  rw [hc]
  constructor
  · intro hpos hlt
    have hsel : applySuggestion d c = d.suggestedPositionSizeUSD := by
      unfold applySuggestion
      rw [if_pos ⟨hpos, hlt⟩]
    simp only [hsel]
    rw [if_neg (not_le_of_lt (div_pos hpos hp))]
  · intro hgt
    have hsel : applySuggestion d c = c := by
      unfold applySuggestion
      rw [if_neg]
      rintro ⟨-, hlt⟩
      exact absurd hgt (not_lt_of_lt hlt)
    simp only [hsel]
    have hcpos : 0 < c := lt_of_lt_of_le (by norm_num [minNotional]) hmin
    rw [if_neg (not_le_of_lt (div_pos hcpos hp))]

/-- Witness for C1 at the spec's scenario (BTCUSDT, suggestion 30 below a
computed ceiling of 80): the engine returns exactly 30. -/
theorem computePositionSize_respects_smaller_suggestion_witness :
    computeSafeCeiling DefaultRiskConfig ⟨10, 5⟩ (.ok 100)
        { symbol := g "BTCUSDT", action := g "open_long", leverage := 10,
          entryPrice := 101, stopLoss := 100, suggestedPositionSizeUSD := 30 }
        { currentPrice := 101 } = .ok (80, 101, 2) ∧
    ComputePositionSize DefaultRiskConfig ⟨10, 5⟩ (.ok 100)
        { symbol := g "BTCUSDT", action := g "open_long", leverage := 10,
          entryPrice := 101, stopLoss := 100, suggestedPositionSizeUSD := 30 }
        { currentPrice := 101 } = .ok (30, 30 / 101, 2) :=
  ⟨by with_unfolding_all decide,
   (computePositionSize_respects_smaller_suggestion DefaultRiskConfig ⟨10, 5⟩
      (.ok 100) _ _ 80 101 2 (by with_unfolding_all decide)).1
     (by norm_num) (by norm_num)⟩

/-- Counterexample to C8 as stated: a positive AI suggestion below the
10-USDT exchange minimum is applied after the minimum-notional check, so
the engine returns notional 5 without any error. -/
theorem computePositionSize_belowMin_counterexample :
    ComputePositionSize DefaultRiskConfig ⟨10, 5⟩ (.ok 100)
        { symbol := g "BTCUSDT", action := g "open_long", leverage := 10,
          entryPrice := 101, stopLoss := 100, suggestedPositionSizeUSD := 5 }
        { currentPrice := 101 } = .ok (5, 5 / 101, 2) ∧
    (5 : ℚ) < minNotional := by
  constructor
  · with_unfolding_all decide
  · norm_num [minNotional]

/-- C8 (amended): the safe ceiling itself is checked against the exchange
minimum — a ceiling below 10 USDT fails with an explicit error and is
never rounded up — but the AI's smaller suggestion is applied after this
check, so a successful result is at least the minimum unless it equals a
smaller positive AI suggestion. -/
theorem computePositionSize_minNotional_amended
    (cfg : RiskConfig) (atCfg : AutoTraderConfig) (balance : Except GoStr ℚ)
    (d : Decision) (mkt : MarketData) :
    (∀ c price riskUSD,
       computeSafeCeiling cfg atCfg balance d mkt = .ok (c, price, riskUSD) →
       minNotional ≤ c) ∧
    (∀ v, computeSafeCeiling cfg atCfg balance d mkt = .error (.belowMinNotional v) →
       v < minNotional) ∧
    (∀ n q r, ComputePositionSize cfg atCfg balance d mkt = .ok (n, q, r) →
       minNotional ≤ n ∨ (n = d.suggestedPositionSizeUSD ∧ 0 < n)) := by
  refine ⟨fun c price riskUSD hc =>
    (computeSafeCeiling_ok_bounds cfg atCfg balance d mkt c price riskUSD hc).2, ?_, ?_⟩
  · intro v hv
    unfold computeSafeCeiling at hv
    split at hv
    · injection hv with h'
      exact SizingErr.noConfusion h'
    · split at hv
      · injection hv with h'
        exact SizingErr.noConfusion h'
      · split at hv
        · injection hv with h'
          exact SizingErr.noConfusion h'
        · split at hv
          · rename_i heq
            injection hv with h'
            rw [h'] at heq
            unfold sizingStopPct0 at heq
            split at heq
            · split at heq
              · split at heq
                · injection heq with h''
                  exact SizingErr.noConfusion h''
                · exact Except.noConfusion heq
              · split at heq
                · injection heq with h''
                  exact SizingErr.noConfusion h''
                · exact Except.noConfusion heq
            · exact Except.noConfusion heq
          · exact ceilingGate_error_inv hv
  · intro n q r hn
    unfold ComputePositionSize at hn
    cases hcc : computeSafeCeiling cfg atCfg balance d mkt with
    | error e =>
      rw [hcc] at hn
      exact Except.noConfusion hn
    | ok triple =>
      obtain ⟨c, price, riskUSD⟩ := triple
      rw [hcc] at hn
      simp only at hn
      split at hn
      · exact Except.noConfusion hn
      · injection hn with h'
        injection h' with h1 hrest
        by_cases hsel : d.suggestedPositionSizeUSD > 0 ∧ d.suggestedPositionSizeUSD < c
        · right
          unfold applySuggestion at h1
          rw [if_pos hsel] at h1
          exact ⟨h1.symm, h1 ▸ hsel.1⟩
        · left
          unfold applySuggestion at h1
          rw [if_neg hsel] at h1
          rw [← h1]
          exact (computeSafeCeiling_ok_bounds cfg atCfg balance d mkt c price riskUSD hcc).2

/-- Witness for C8 (amended) at a concrete run that succeeds with the
ceiling (no suggestion): the returned notional is at least 10 USDT. -/
theorem computePositionSize_minNotional_amended_witness :
    ComputePositionSize DefaultRiskConfig ⟨10, 5⟩ (.ok 100)
        { symbol := g "BTCUSDT", action := g "open_long", leverage := 10,
          entryPrice := 101, stopLoss := 100 }
        { currentPrice := 101 } = .ok (80, 80 / 101, 2) ∧
    (minNotional ≤ 80 ∨ ((80 : ℚ) = 0 ∧ (0 : ℚ) < 80)) :=
  ⟨by with_unfolding_all decide,
   (computePositionSize_minNotional_amended DefaultRiskConfig ⟨10, 5⟩ (.ok 100)
      { symbol := g "BTCUSDT", action := g "open_long", leverage := 10,
        entryPrice := 101, stopLoss := 100 }
      { currentPrice := 101 }).2.2 80 (80 / 101) 2 (by with_unfolding_all decide)⟩

/-- Counterexample to C6 as stated: with a current stop of 0, a long at
entry 100 and a 4h ATR14 of 10, the emitted stop is `entry - 2.5*ATR = 75`
— the distance is not clamped by `min(ATR*atr_multiplier,
entry*max_stop_loss_pct)`, which would demand a stop of 97.5. -/
theorem checkManagement_emergency_min_counterexample :
    CheckManagementAction { side := g "long", entryPrice := 100, markPrice := 100 } 0
        (some { currentPrice := 100, longerTermContext := some ⟨10⟩ }) =
      ⟨g "update_stop_loss", 75, .emergencyMissingSL⟩ ∧
    (100 : ℚ) -
        min (DefaultRiskConfig.defaultStopLossATRMultiplier * 10)
          (100 * DefaultRiskConfig.maxStopLossPct) = 97.5 ∧
    (75 : ℚ) ≠ 97.5 := by
  refine ⟨by with_unfolding_all decide, ?_, by norm_num⟩
  norm_num [DefaultRiskConfig]

/-- C6 (amended): a position with stop 0 gets an `update_stop_loss`
action whose price sits at distance `2.5 * ATR` from entry (below for
longs, above for shorts), where ATR is the 4h ATR14 when present and
nonzero and otherwise 3% of the mark price; no `entry * max_stop_loss_pct`
cap is applied, and the new price is strictly on the correct side of
entry whenever that ATR value is positive. -/
theorem checkManagement_missing_stop_emergency
    (pos : PositionInfo) (md : Option MarketData) :
    ((CheckManagementAction pos 0 md).action = g "update_stop_loss" ∧
     (CheckManagementAction pos 0 md).reason = .emergencyMissingSL) ∧
    (CheckManagementAction pos 0 md).newPrice =
      (if pos.side = g "long" then pos.entryPrice - 2.5 * emergencyATR pos md
       else pos.entryPrice + 2.5 * emergencyATR pos md) ∧
    (0 < emergencyATR pos md →
      (if pos.side = g "long"
       then (CheckManagementAction pos 0 md).newPrice < pos.entryPrice
       else pos.entryPrice < (CheckManagementAction pos 0 md).newPrice)) := by
  have hact : CheckManagementAction pos 0 md =
      ⟨g "update_stop_loss",
       (if pos.side = g "long" then pos.entryPrice - 2.5 * emergencyATR pos md
        else pos.entryPrice + 2.5 * emergencyATR pos md),
       .emergencyMissingSL⟩ := by
    unfold CheckManagementAction emergencyATR
    rw [if_pos rfl]
  rw [hact]
  refine ⟨⟨rfl, rfl⟩, rfl, ?_⟩
  intro hatr
  have h25 : (0 : ℚ) < 2.5 * emergencyATR pos md := by
    have : (0 : ℚ) < 2.5 := by norm_num
    exact mul_pos this hatr
  by_cases hside : pos.side = g "long"
  · rw [if_pos hside, if_pos hside]
    linarith
  · rw [if_neg hside, if_neg hside]
    linarith

/-- Witness for C6 (amended): short position, no market data at all — the
ATR falls back to 3% of mark (3), the stop goes 7.5 above entry. -/
theorem checkManagement_missing_stop_emergency_witness :
    (CheckManagementAction { side := g "short", entryPrice := 100, markPrice := 100 } 0 none).newPrice =
        (if (g "short") = g "long" then (100 : ℚ) - 2.5 * 3 else (100 : ℚ) + 2.5 * 3) ∧
    (100 : ℚ) <
      (CheckManagementAction { side := g "short", entryPrice := 100, markPrice := 100 } 0 none).newPrice := by
  have h := checkManagement_missing_stop_emergency
    { side := g "short", entryPrice := 100, markPrice := 100 } none
  refine ⟨?_, ?_⟩
  · have := h.2.1
    rw [this]
    with_unfolding_all decide
  · have h3 : (0 : ℚ) < emergencyATR { side := g "short", entryPrice := 100, markPrice := 100 } none := by
      with_unfolding_all decide
    have := h.2.2 h3
    rw [if_neg (by decide : ¬ (g "short") = g "long")] at this
    exact this

/-- C10: with a nonzero current stop, missing market data, a missing
longer-term context, or a zero 4h ATR14 short-circuits
`CheckManagementAction` to the `none` action, regardless of how large the
R:R multiple would be. -/
theorem checkManagement_noATR_none
    (pos : PositionInfo) (currentSL : ℚ) (md : Option MarketData)
    (hsl : currentSL ≠ 0)
    (hatr : md = none ∨
      ∃ m, md = some m ∧ (m.longerTermContext = none ∨
        ∃ ltc, m.longerTermContext = some ltc ∧ ltc.atr14 = 0)) :
    CheckManagementAction pos currentSL md = noneAction := by
  unfold CheckManagementAction
  rw [if_neg hsl]
  rcases hatr with hnone | ⟨m, hm, hltc⟩
  · rw [hnone]
  · subst hm
    rcases hltc with hln | ⟨ltc, hle, hz⟩
    · dsimp only
      rw [hln]
    · dsimp only
      rw [hle]
      dsimp only
      rw [if_pos hz]

/-- Witness for C10: long at entry 100, mark 150, stop 95 (an R:R of 10,
far beyond both thresholds), but no market data — still `none`. -/
theorem checkManagement_noATR_none_witness :
    CheckManagementAction { side := g "long", entryPrice := 100, markPrice := 150 } 95 none =
      noneAction ∧
    ((150 : ℚ) - 100) / |(100 : ℚ) - 95| > 2 :=
  ⟨checkManagement_noATR_none
      { side := g "long", entryPrice := 100, markPrice := 150 } 95 none
      (by norm_num) (Or.inl rfl),
   by norm_num⟩

/-- Counterexample to C3 as stated: a long whose stop sits above the
current price has an absolute potential loss of 100 USDT against a 2 USDT
budget, yet the risk check leaves the result valid, because the source
computes the signed loss (here −100), not `|current − stop|`. -/
theorem validateRisk_abs_counterexample :
    (validateRisk
        { accountEquity := 100, btcEthLeverage := 10, altcoinLeverage := 5,
          marketData := [(g "BTCUSDT", { currentPrice := 100 })] }
        { symbol := g "BTCUSDT", action := g "open_long",
          positionSizeUSD := 100, stopLoss := 200 }
        newValidationResult).isValid = true ∧
    (100 : ℚ) / 100 * |(100 : ℚ) - 200| > 100 * 0.02 := by
  constructor
  · with_unfolding_all decide
  · norm_num

/-- C3 (amended): with market data present and a positive current price,
the risk check records `risk_percent = loss / equity * 100` and appends a
fatal risk error exactly when `loss > equity * 0.02`, where `loss` is the
signed directional loss `quantity * (current − stop)` for longs and
`quantity * (stop − current)` for shorts — not its absolute value. -/
theorem validateRisk_signed_loss (ev : EnhancedValidator) (d : Decision)
    (r : ValidationResult) (md : MarketData)
    (hmd : lookupMarket ev d.symbol = some md) (hp : 0 < md.currentPrice) :
    (validateRisk ev d r).riskPercent =
      directionalLoss d md / ev.accountEquity * 100 ∧
    (validateRisk ev d r).errors = r.errors ++
      (if directionalLoss d md > ev.accountEquity * 0.02 then
        [.riskExceeded (directionalLoss d md)
          (directionalLoss d md / ev.accountEquity * 100) (ev.accountEquity * 0.02)]
       else []) ∧
    (validateRisk ev d r).isValid =
      (r.isValid && ! decide (directionalLoss d md > ev.accountEquity * 0.02)) := by
  have hple : ¬ md.currentPrice ≤ 0 := not_le_of_lt hp
  unfold validateRisk
  rw [hmd]
  dsimp only
  rw [if_neg hple]
  by_cases hrisk : directionalLoss d md > ev.accountEquity * 0.02
  · rw [if_pos hrisk, if_pos hrisk]
    rw [decide_eq_true hrisk]
    refine ⟨?_, ?_, ?_⟩
    · split
      · rfl
      · split <;> rfl
    · split
      · rfl
      · split <;> rfl
    · split
      · simp
      · split <;> simp
  · rw [if_neg hrisk, if_neg hrisk]
    rw [decide_eq_false hrisk]
    refine ⟨?_, ?_, ?_⟩
    · split
      · rfl
      · split <;> rfl
    · split
      · simp
      · split <;> simp
    · split
      · simp
      · split <;> simp

/-- Witness for C3 (amended) at a concrete in-budget long (price 100,
stop 99, size 100, equity 100): risk percent 1, no risk error, validity
preserved. -/
theorem validateRisk_signed_loss_witness :
    (validateRisk
        { accountEquity := 100, btcEthLeverage := 10, altcoinLeverage := 5,
          marketData := [(g "BTCUSDT", { currentPrice := 100 })] }
        { symbol := g "BTCUSDT", action := g "open_long",
          positionSizeUSD := 100, stopLoss := 99 }
        newValidationResult).riskPercent =
      directionalLoss
        { symbol := g "BTCUSDT", action := g "open_long",
          positionSizeUSD := 100, stopLoss := 99 }
        { currentPrice := 100 } / 100 * 100 :=
  (validateRisk_signed_loss
    { accountEquity := 100, btcEthLeverage := 10, altcoinLeverage := 5,
      marketData := [(g "BTCUSDT", { currentPrice := 100 })] }
    { symbol := g "BTCUSDT", action := g "open_long",
      positionSizeUSD := 100, stopLoss := 99 }
    newValidationResult { currentPrice := 100 }
    (by with_unfolding_all decide) (by norm_num)).1

/-- Function `generateSuggestions` only appends suggestions: validity and
errors pass through unchanged. -/
theorem generateSuggestions_preserves (ev : EnhancedValidator) (d : Decision)
    (r : ValidationResult) :
    (generateSuggestions ev d r).isValid = r.isValid ∧
    (generateSuggestions ev d r).errors = r.errors := by
  unfold generateSuggestions
  repeat' first | split | dsimp only
  all_goals exact ⟨rfl, rfl⟩

/-- Function `assessRiskLevel` only rewrites the risk level: validity and
errors pass through unchanged. -/
theorem assessRiskLevel_preserves (r : ValidationResult) :
    (assessRiskLevel r).isValid = r.isValid ∧
    (assessRiskLevel r).errors = r.errors := by
  unfold assessRiskLevel
  split
  · exact ⟨rfl, rfl⟩
  · split
    · exact ⟨rfl, rfl⟩
    · split <;> exact ⟨rfl, rfl⟩

/-- Function `validateLeverage` marks the result invalid and leaves a
leverage error whenever the leverage is above the symbol-class cap or
below 1. -/
theorem validateLeverage_invalid (ev : EnhancedValidator) (d : Decision)
    (r : ValidationResult)
    (hbad : d.leverage > maxLeverageFor ev d.symbol ∨ d.leverage < 1) :
    (validateLeverage ev d r).isValid = false ∧
    ∃ m ∈ (validateLeverage ev d r).errors,
      m = Msg.leverageExceeded d.leverage (maxLeverageFor ev d.symbol) ∨
      m = Msg.leverageBelowOne := by
  unfold validateLeverage
  dsimp only
  rcases hbad with hgt | hlt
  · rw [if_pos hgt]
    refine ⟨?_, Msg.leverageExceeded d.leverage (maxLeverageFor ev d.symbol), ?_, Or.inl rfl⟩
    · split <;> split <;> rfl
    · split <;> split <;> simp [List.mem_append]
  · rw [if_pos hlt]
    refine ⟨?_, Msg.leverageBelowOne, ?_, Or.inr rfl⟩
    · split <;> split <;> rfl
    · split <;> split <;> simp [List.mem_append]

/-- C7: an open decision whose leverage is above the symbol-class cap or
below 1 is fatally rejected by the enhanced validator, and the leverage
check never writes to the decision — the in-out pair returns the decision
unchanged (no silent clamping). -/
theorem validateLeverage_rejects (ev : EnhancedValidator) (d : Decision)
    (hopen : d.action = g "open_long" ∨ d.action = g "open_short")
    (hbad : d.leverage > maxLeverageFor ev d.symbol ∨ d.leverage < 1) :
    (ValidateDecision ev d).isValid = false ∧
    (∃ m ∈ (ValidateDecision ev d).errors,
        m = Msg.leverageExceeded d.leverage (maxLeverageFor ev d.symbol) ∨
        m = Msg.leverageBelowOne) ∧
    ∀ p : Decision × ValidationResult, (validateLeverageInOut ev p).1 = p.1 := by
  refine ⟨?_, ?_, fun p => rfl⟩
  · unfold ValidateDecision
    dsimp only
    rw [if_pos hopen]
    rw [(assessRiskLevel_preserves _).1, (generateSuggestions_preserves ev d _).1]
    exact (validateLeverage_invalid ev d _ hbad).1
  · unfold ValidateDecision
    dsimp only
    rw [if_pos hopen]
    rw [(assessRiskLevel_preserves _).2, (generateSuggestions_preserves ev d _).2]
    exact (validateLeverage_invalid ev d _ hbad).2

/-- Witness for C7 at the spec's scenario: an altcoin decision at
leverage 20 against cap 5 is rejected and its leverage field is still 20. -/
theorem validateLeverage_rejects_witness :
    (ValidateDecision
        { accountEquity := 100, btcEthLeverage := 10, altcoinLeverage := 5,
          marketData := [(g "SOLUSDT", { currentPrice := 100 })] }
        { symbol := g "SOLUSDT", action := g "open_long", leverage := 20,
          positionSizeUSD := 15, stopLoss := 99, takeProfit := 101 }).isValid = false ∧
    (validateLeverageInOut
        { accountEquity := 100, btcEthLeverage := 10, altcoinLeverage := 5,
          marketData := [(g "SOLUSDT", { currentPrice := 100 })] }
        ({ symbol := g "SOLUSDT", action := g "open_long", leverage := 20,
           positionSizeUSD := 15, stopLoss := 99, takeProfit := 101 },
         newValidationResult)).1.leverage = 20 := by
  have h := validateLeverage_rejects
    { accountEquity := 100, btcEthLeverage := 10, altcoinLeverage := 5,
      marketData := [(g "SOLUSDT", { currentPrice := 100 })] }
    { symbol := g "SOLUSDT", action := g "open_long", leverage := 20,
      positionSizeUSD := 15, stopLoss := 99, takeProfit := 101 }
    (Or.inl rfl) (Or.inl (by with_unfolding_all decide))
  exact ⟨h.1, by rw [h.2.2]⟩

/-- Counterexample to C9 as stated: basic validation rejects a hold
decision with an empty symbol — the symbol requirement has no hold/wait
exemption in `basicValidation`. -/
theorem basicValidation_hold_empty_counterexample :
    basicValidation { action := g "hold" } = .error .emptySymbol ∧
    isValidAction (g "hold") = true := by
  exact ⟨by decide, by decide⟩

/-- Helper for C9: a well-formed non-open decision bypasses the enhanced
validator entirely — batch-level validation reduces to the market-free
action-specific field checks, for every market environment. -/
theorem validateDecisionWithMarketData_nonopen
    (mg : GoStr → Except GoStr MarketData) (d : Decision) (eq : ℚ)
    (btc alt : ℤ) (pos : List PositionInfo) (mock : Option MarketData)
    (hval : isValidAction d.action = true)
    (hno : ¬ (d.action = g "open_long" ∨ d.action = g "open_short")) :
    validateDecisionWithMarketData mg d eq btc alt pos mock =
      actionFieldChecks d := by
  unfold validateDecisionWithMarketData
  rw [if_neg (not_not_intro hval), if_neg hno]

/-- C9 (amended): basic validation accepts exactly the nine enumerated
actions with a non-empty symbol — the symbol is required for every
action, hold and wait included; at the batch level the risk pipeline
(and hence any market access) is invoked only for open decisions, so
hold and wait decisions pass validation in every market environment. -/
theorem basicValidation_amended :
    (∀ d : Decision, basicValidation d = .ok () ↔
        (isValidAction d.action = true ∧ d.symbol ≠ [])) ∧
    (∀ (mg : GoStr → Except GoStr MarketData) (d : Decision) (eq : ℚ)
        (btc alt : ℤ) (pos : List PositionInfo) (mock : Option MarketData),
        isValidAction d.action = true →
        ¬ (d.action = g "open_long" ∨ d.action = g "open_short") →
        validateDecisionWithMarketData mg d eq btc alt pos mock =
          actionFieldChecks d) ∧
    (∀ (mg : GoStr → Except GoStr MarketData) (d : Decision) (eq : ℚ)
        (btc alt : ℤ) (pos : List PositionInfo) (mock : Option MarketData),
        (d.action = g "hold" ∨ d.action = g "wait") →
        validateDecisionWithMarketData mg d eq btc alt pos mock = .ok ()) := by
  refine ⟨?_, validateDecisionWithMarketData_nonopen, ?_⟩
  · intro d
    unfold basicValidation
    split
    · rename_i hna
      constructor
      · intro h
        exact Except.noConfusion h
      · rintro ⟨ha, -⟩
        exact absurd ha hna
    · rename_i hna
      rw [not_not] at hna
      split
      · rename_i hsym
        constructor
        · intro h
          exact Except.noConfusion h
        · rintro ⟨-, hs⟩
          exact absurd hsym hs
      · rename_i hsym
        exact ⟨fun _ => ⟨hna, hsym⟩, fun _ => rfl⟩
  · intro mg d eq btc alt pos mock hv
    have hval : isValidAction d.action = true := by
      rcases hv with h | h <;> rw [h] <;> decide
    have hno : ¬ (d.action = g "open_long" ∨ d.action = g "open_short") := by
      rcases hv with h | h <;> rw [h] <;> decide
    rw [validateDecisionWithMarketData_nonopen mg d eq btc alt pos mock hval hno]
    have h1 : ¬ (d.action = g "update_stop_loss" ∧ d.newStopLoss ≤ 0) := by
      rintro ⟨ha, -⟩
      rcases hv with h | h <;> rw [h] at ha <;> exact absurd ha (by decide)
    have h2 : ¬ (d.action = g "update_take_profit" ∧ d.newTakeProfit ≤ 0) := by
      rintro ⟨ha, -⟩
      rcases hv with h | h <;> rw [h] at ha <;> exact absurd ha (by decide)
    have h3 : ¬ (d.action = g "partial_close" ∧
        (d.closePercentage ≤ 0 ∨ d.closePercentage > 100)) := by
      rintro ⟨ha, -⟩
      rcases hv with h | h <;> rw [h] at ha <;> exact absurd ha (by decide)
    have h4 : ¬ (d.action = g "partial_close" ∧ d.closePercentage < 5) := by
      rintro ⟨ha, -⟩
      rcases hv with h | h <;> rw [h] at ha <;> exact absurd ha (by decide)
    unfold actionFieldChecks
    rw [if_neg h1, if_neg h2, if_neg h3, if_neg h4]

/-- Witness for C9 (amended): a wait decision with no symbol at all
passes batch-level validation against an environment with no market
data whatsoever. -/
theorem basicValidation_amended_witness :
    validateDecisionWithMarketData (fun _ => .error (g "offline"))
      { action := g "wait" } 100 10 5 [] none = .ok () :=
  basicValidation_amended.2.2 (fun _ => .error (g "offline"))
    { action := g "wait" } 100 10 5 [] none (Or.inr rfl)

/-- Helper for C2: success of the indexed batch loop means every decision
passes. -/
theorem validateDecisionsFrom_ok_iff
    (mg : GoStr → Except GoStr MarketData) (eq : ℚ) (btc alt : ℤ)
    (pos : List PositionInfo) :
    ∀ (ds : List Decision) (i : ℕ),
      validateDecisionsFrom mg eq btc alt pos i ds = .ok () ↔
      ∀ d ∈ ds, validateDecision mg d eq btc alt pos = .ok () := by
  intro ds
  induction ds with
  | nil =>
    intro i
    constructor
    · intro _ d hd
      exact absurd hd (List.not_mem_nil d)
    · intro _
      rfl
  | cons d rest ih =>
    intro i
    unfold validateDecisionsFrom
    cases hd : validateDecision mg d eq btc alt pos with
    | error e =>
      constructor
      · intro h
        exact Except.noConfusion h
      · intro hall
        have := hall d (List.mem_cons_self d rest)
        rw [hd] at this
        exact Except.noConfusion this
    | ok u =>
      cases u
      rw [ih (i + 1)]
      constructor
      · intro h d' hd'
        rcases List.mem_cons.mp hd' with h1 | h2
        · rw [h1]
          exact hd
        · exact h d' h2
      · intro hall d' hd'
        exact hall d' (List.mem_cons_of_mem d hd')

/-- Helper for C2: a failing indexed batch loop pinpoints the first
failing decision. -/
theorem validateDecisionsFrom_error
    (mg : GoStr → Except GoStr MarketData) (eq : ℚ) (btc alt : ℤ)
    (pos : List PositionInfo) :
    ∀ (ds : List Decision) (i n : ℕ) (e : DecisionErr),
      validateDecisionsFrom mg eq btc alt pos i ds = .error ⟨n, e⟩ →
      ∃ k, k < ds.length ∧ n = i + k + 1 ∧
        validateDecision mg (ds.getD k {}) eq btc alt pos = .error e ∧
        ∀ j, j < k → validateDecision mg (ds.getD j {}) eq btc alt pos = .ok () := by
  intro ds
  induction ds with
  | nil =>
    intro i n e h
    exact Except.noConfusion h
  | cons d rest ih =>
    intro i n e h
    unfold validateDecisionsFrom at h
    cases hd : validateDecision mg d eq btc alt pos with
    | error e' =>
      rw [hd] at h
      injection h with h'
      injection h' with hn he
      refine ⟨0, Nat.succ_pos _, ?_, ?_, ?_⟩
      · rw [← hn]
      · rw [List.getD_cons_zero, hd, he]
      · intro j hj
        exact absurd hj (Nat.not_lt_zero j)
    | ok u =>
      cases u
      rw [hd] at h
      obtain ⟨k, hk, hn, hfail, hok⟩ := ih (i + 1) n e h
      refine ⟨k + 1, by simpa using Nat.succ_lt_succ hk, by omega, ?_, ?_⟩
      · rw [List.getD_cons_succ]
        exact hfail
      · intro j hj
        cases j with
        | zero =>
          rw [List.getD_cons_zero]
          exact hd
        | succ j' =>
          rw [List.getD_cons_succ]
          exact hok j' (Nat.lt_of_succ_lt_succ hj)

/-- C2: batch validation is atomic and fail-fast — the batch is accepted
iff every decision passes, and a rejected batch carries the 1-based index
of the first failing decision together with that decision's error, every
earlier decision having passed. -/
theorem validateDecisions_batch_atomic
    (mg : GoStr → Except GoStr MarketData) (ds : List Decision) (eq : ℚ)
    (btc alt : ℤ) (pos : List PositionInfo) :
    (validateDecisions mg ds eq btc alt pos = .ok () ↔
      ∀ d ∈ ds, validateDecision mg d eq btc alt pos = .ok ()) ∧
    (∀ n e, validateDecisions mg ds eq btc alt pos = .error ⟨n, e⟩ →
      ∃ k, k < ds.length ∧ n = k + 1 ∧
        validateDecision mg (ds.getD k {}) eq btc alt pos = .error e ∧
        ∀ j, j < k → validateDecision mg (ds.getD j {}) eq btc alt pos = .ok ()) := by
  constructor
  · exact validateDecisionsFrom_ok_iff mg eq btc alt pos ds 0
  · intro n e h
    obtain ⟨k, hk, hn, hfail, hok⟩ :=
      validateDecisionsFrom_error mg eq btc alt pos ds 0 n e h
    exact ⟨k, hk, by omega, hfail, hok⟩

/-- Witness for C2: a two-decision batch whose second decision has an
unknown action is rejected as a whole with index 2, the first decision
having passed. -/
theorem validateDecisions_batch_atomic_witness :
    validateDecisions (fun _ => .error (g "offline"))
      [{ action := g "wait" }, { action := g "fly" }] 100 10 5 [] =
      .error ⟨2, .invalidAction (g "fly")⟩ ∧
    (∃ k, k < 2 ∧ 2 = k + 1 ∧
      validateDecision (fun _ => .error (g "offline"))
        ([{ action := g "wait" }, { action := g "fly" }].getD k {}) 100 10 5 [] =
        .error (.invalidAction (g "fly")) ∧
      ∀ j, j < k → validateDecision (fun _ => .error (g "offline"))
        ([{ action := g "wait" }, { action := g "fly" }].getD j {}) 100 10 5 [] =
        .ok ()) :=
  ⟨by with_unfolding_all decide,
   (validateDecisions_batch_atomic (fun _ => .error (g "offline"))
      [{ action := g "wait" }, { action := g "fly" }] 100 10 5 []).2 2
     (.invalidAction (g "fly")) (by with_unfolding_all decide)⟩

/-- Helper for C5: head of a `dropWhile` in terms of a whitespace prefix. -/
theorem dropWhile_head_some_iff (pr : Nat → Bool) (c : Nat) (hc : pr c = false) :
    ∀ l : GoStr, (l.dropWhile pr).head? = some c ↔
      ∃ w r, l = w ++ c :: r ∧ ∀ b ∈ w, pr b = true := by
  intro l
  induction l with
  | nil =>
    constructor
    · intro h
      simp [List.dropWhile] at h
    · rintro ⟨w, r, h, -⟩
      exact absurd h (by simp)
  | cons a l' ih =>
    rw [List.dropWhile_cons]
    by_cases ha : pr a = true
    · rw [if_pos ha, ih]
      constructor
      · rintro ⟨w, r, hl, hw⟩
        refine ⟨a :: w, r, by rw [hl, List.cons_append], ?_⟩
        intro b hb
        rcases List.mem_cons.mp hb with h1 | h2
        · rw [h1]; exact ha
        · exact hw b h2
      · rintro ⟨w, r, hl, hw⟩
        cases w with
        | nil =>
          simp only [List.nil_append] at hl
          injection hl with h1 h2
          rw [h1] at ha
          rw [ha] at hc
          exact Bool.noConfusion hc
        | cons w0 w' =>
          simp only [List.cons_append] at hl
          injection hl with h1 h2
          exact ⟨w', r, h2, fun b hb => hw b (List.mem_cons_of_mem w0 hb)⟩
    · rw [if_neg ha]
      constructor
      · intro h
        simp only [List.head?_cons, Option.some.injEq] at h
        exact ⟨[], l', by rw [h, List.nil_append],
          by intro b hb; exact absurd hb (List.not_mem_nil b)⟩
      · rintro ⟨w, r, hl, hw⟩
        cases w with
        | nil =>
          simp only [List.nil_append] at hl
          injection hl with h1 h2
          simp [h1]
        | cons w0 w' =>
          simp only [List.cons_append] at hl
          injection hl with h1 h2
          have := hw w0 (List.mem_cons_self w0 w')
          rw [← h1] at this
          exact absurd this ha

/-- Helper for C5: the `^\[\s*\{` regexp agrees with the spec's wording
of the shape rule. -/
theorem arrayHeadMatch_iff (t : GoStr) :
    arrayHeadMatch t = true ↔ specArrayObjectHead t := by
  cases t with
  | nil =>
    constructor
    · intro h
      exact Bool.noConfusion h
    · rintro ⟨w, r, h, -⟩
      exact absurd h (by simp)
  | cons b rest =>
    unfold arrayHeadMatch specArrayObjectHead
    rw [Bool.and_eq_true, decide_eq_true_eq, decide_eq_true_eq]
    rw [dropWhile_head_some_iff isReSpace 123 (by decide) rest]
    constructor
    · rintro ⟨hb, w, r, hl, hw⟩
      exact ⟨w, r, by rw [hb, hl], hw⟩
    · rintro ⟨w, r, hl, hw⟩
      injection hl with h1 h2
      exact ⟨h1, w, r, h2, hw⟩

/-- Helper for C5: `indexOfSub` finds an index exactly when the pattern is
an infix. -/
theorem indexOfSub_isSome_iff (pat : GoStr) :
    ∀ s : GoStr, (indexOfSub pat s).isSome = true ↔ pat <:+: s := by
  intro s
  induction s with
  | nil =>
    unfold indexOfSub
    split
    · rename_i h
      simp only [Option.isSome_some, true_iff, h]
      exact List.infix_rfl
    · rename_i h
      constructor
      · intro h'
        exact Bool.noConfusion h'
      · intro hi
        exact (h (List.infix_nil.mp hi)).elim
  | cons b rest ih =>
    unfold indexOfSub
    split
    · rename_i h
      simp only [Option.isSome_some, true_iff]
      exact (List.isPrefixOf_iff_prefix.mp h).isInfix
    · rename_i h
      rw [Option.isSome_map']
      rw [ih]
      constructor
      · intro hi
        exact hi.trans (List.suffix_cons b rest).isInfix
      · intro hi
        rcases List.infix_cons_iff.mp hi with hp | hi'
        · exact absurd (List.isPrefixOf_iff_prefix.mpr hp) h
        · exact hi'

/-- Helper for C5: `strings.Contains` agrees with list infix. -/
theorem goContains_iff (s pat : GoStr) :
    goContains s pat = true ↔ pat <:+: s := by
  unfold goContains
  exact indexOfSub_isSome_iff pat s

/-- Helper for C5: one-byte unfolding of the spec-side thousands
violation. -/
theorem specThousandsViolation_cons (p : Bool × Bool) (b : Nat) (rest : GoStr) :
    specThousandsViolation p (b :: rest) ↔
      ((4 ≤ rest.length ∧ (scanStep p b).1 = false ∧
          thousandsPatternHead b rest = true) ∨
       specThousandsViolation (scanStep p b) rest) := by
  unfold specThousandsViolation
  constructor
  · rintro ⟨i, hi, hst, h0, h1, h2, h3, h4⟩
    cases i with
    | zero =>
      left
      refine ⟨by simp only [List.length_cons] at hi; omega, ?_, ?_⟩
      · simpa [scanState, List.take_succ_cons, List.take_zero,
          List.foldl_cons, List.foldl_nil] using hst
      · unfold thousandsPatternHead
        rw [Bool.and_eq_true, Bool.and_eq_true, Bool.and_eq_true, Bool.and_eq_true]
        simp only [List.getD_cons_zero, List.getD_cons_succ] at h0 h1 h2 h3 h4
        exact ⟨⟨⟨⟨h0, decide_eq_true h1⟩, h2⟩, h3⟩, h4⟩
    | succ j =>
      right
      simp only [List.getD_cons_succ] at h0 h1 h2 h3 h4
      refine ⟨j, by simp only [List.length_cons] at hi; omega, ?_, h0, h1, h2, h3, h4⟩
      simpa [scanState, List.take_succ_cons, List.foldl_cons] using hst
  · rintro (⟨hlen, hst, hpat⟩ | ⟨j, hj, hst, h0, h1, h2, h3, h4⟩)
    · unfold thousandsPatternHead at hpat
      simp only [Bool.and_eq_true, decide_eq_true_eq] at hpat
      obtain ⟨⟨⟨⟨p0, p1⟩, p2⟩, p3⟩, p4⟩ := hpat
      refine ⟨0, by simp only [List.length_cons]; omega, ?_, ?_, ?_, ?_, ?_, ?_⟩
      · simpa [scanState, List.take_succ_cons, List.take_zero,
          List.foldl_cons, List.foldl_nil] using hst
      · simpa using p0
      · simpa using p1
      · simpa using p2
      · simpa using p3
      · simpa using p4
    · refine ⟨j + 1, by simp only [List.length_cons]; omega, ?_, ?_, ?_, ?_, ?_, ?_⟩
      · simpa [scanState, List.take_succ_cons, List.foldl_cons] using hst
      · simpa using h0
      · simpa using h1
      · simpa using h2
      · simpa using h3
      · simpa using h4

/-- Helper for C5: the scanner loop finds no fragment exactly when there
is no spec-side thousands violation. -/
theorem checkThousandsAux_none_iff :
    ∀ (s : GoStr) (p : Bool × Bool),
      checkThousandsAux p s = none ↔ ¬ specThousandsViolation p s := by
  intro s
  induction s with
  | nil =>
    intro p
    constructor
    · rintro - ⟨i, hi, -⟩
      simp at hi
    · intro _
      rfl
  | cons b rest ih =>
    intro p
    unfold checkThousandsAux
    rw [specThousandsViolation_cons]
    by_cases hlen : rest.length < 4
    · rw [if_pos hlen]
      constructor
      · rintro - (⟨h4, -⟩ | ⟨i, hi, -⟩)
        · omega
        · omega
      · intro _
        rfl
    · rw [if_neg hlen]
      by_cases hin : (scanStep p b).1 = true
      · rw [if_pos hin, ih (scanStep p b)]
        constructor
        · intro hno
          rintro (⟨-, hst, -⟩ | hv)
          · rw [hin] at hst
            exact Bool.noConfusion hst
          · exact hno hv
        · intro hno hv
          exact hno (Or.inr hv)
      · rw [if_neg hin]
        by_cases hpat : thousandsPatternHead b rest = true
        · rw [if_pos hpat]
          constructor
          · intro h
            exact Option.noConfusion h
          · intro hno
            exact absurd (Or.inl ⟨by omega, by simpa using hin, hpat⟩) hno
        · rw [if_neg hpat]
          rw [ih (scanStep p b)]
          constructor
          · intro hno
            rintro (⟨-, -, hp⟩ | hv)
            · exact hpat hp
            · exact hno hv
          · intro hno hv
            exact hno (Or.inr hv)

/-- C5: `validateJSONFormat` accepts exactly the candidates that start
(after trimming) with `[` + whitespace + `{`, contain no `~`, and contain
no thousands-separator comma in a numeric context under the
quote/escape-aware scanner; a comma inside a string value (the Chinese
reasoning example) is accepted, a bare `102,707` is rejected. -/
theorem validateJSONFormat_characterization :
    (∀ s : GoStr, validateJSONFormat s = .ok () ↔
        (specArrayObjectHead (goTrimSpace s) ∧ ¬ (g "~") <:+: s ∧
         ¬ specThousandsViolation (false, false) s)) ∧
    validateJSONFormat (g "[\x7b\"reasoning\": \"价格102,707\"\x7d]") = .ok () ∧
    validateJSONFormat (g "[\x7b\"price\": 102,707\x7d]") =
      .error (.thousandsSeparator (g "2,707\x7d]")) := by
  refine ⟨?_, by decide, by decide⟩
  intro s
  unfold validateJSONFormat
  dsimp only
  by_cases hhead : arrayHeadMatch (goTrimSpace s) = true
  · rw [if_neg (not_not_intro hhead)]
    by_cases htl : goContains s (g "~") = true
    · rw [if_pos htl]
      constructor
      · intro h
        exact Except.noConfusion h
      · rintro ⟨-, hnt, -⟩
        exact absurd ((goContains_iff s (g "~")).mp htl) hnt
    · rw [if_neg htl]
      cases hth : checkThousandsSeparatorsOutsideStrings s with
      | some frag =>
        dsimp only
        constructor
        · intro h
          exact Except.noConfusion h
        · rintro ⟨-, -, hnv⟩
          have hnone := (checkThousandsAux_none_iff s (false, false)).mpr hnv
          unfold checkThousandsSeparatorsOutsideStrings at hth
          rw [hnone] at hth
          exact Option.noConfusion hth
      | none =>
        dsimp only
        constructor
        · intro _
          refine ⟨(arrayHeadMatch_iff _).mp hhead, ?_, ?_⟩
          · intro hinf
            exact htl ((goContains_iff s (g "~")).mpr hinf)
          · exact (checkThousandsAux_none_iff s (false, false)).mp hth
        · intro _
          rfl
  · rw [if_pos hhead]
    have hns : ¬ specArrayObjectHead (goTrimSpace s) := by
      intro hs
      exact hhead ((arrayHeadMatch_iff _).mpr hs)
    split
    · constructor
      · intro h
        exact Except.noConfusion h
      · rintro ⟨hs, -⟩
        exact absurd hs hns
    · constructor
      · intro h
        exact Except.noConfusion h
      · rintro ⟨hs, -⟩
        exact absurd hs hns

/-- C4: when the normalized response contains no JSON candidate at all —
no ```json fence match and no bracket-delimited array-of-objects pattern
— extraction does not fail: it returns exactly one fallback decision with
symbol "ALL", action "wait", and a reasoning embedding at most the first
240 bytes of the normalized trace. -/
theorem extractDecisions_safe_fallback
    (unmarshal : GoStr → Option (List Decision)) (response : GoStr)
    (hfence : fenceFind (jsonPartOf response) = none)
    (harr : findJSONArray (jsonPartOf response) = none) :
    ∃ summary : GoStr,
      extractDecisions unmarshal response = .ok [fallbackDecision summary] ∧
      (fallbackDecision summary).symbol = g "ALL" ∧
      (fallbackDecision summary).action = g "wait" ∧
      (fallbackDecision summary).reasoning =
        g "模型未输出结构化JSON决策，进入安全等待；摘要：" ++ summary ∧
      ((summary = jsonPartOf response ∧ summary.length ≤ 240) ∨
       summary = (jsonPartOf response).take 240 ++ g "...") := by
  refine ⟨if (jsonPartOf response).length > 240
          then (jsonPartOf response).take 240 ++ g "..."
          else jsonPartOf response, ?_, rfl, rfl, rfl, ?_⟩
  · unfold extractDecisions
    dsimp only
    rw [hfence, harr]
    rfl
  · by_cases hlen : (jsonPartOf response).length > 240
    · rw [if_pos hlen]
      exact Or.inr rfl
    · rw [if_neg hlen]
      exact Or.inl ⟨rfl, by omega⟩

/-- Witness for C4 at a concrete bracket-free response: the parser
degrades to the single ALL/wait decision. -/
theorem extractDecisions_safe_fallback_witness :
    fenceFind (jsonPartOf (g "trend unclear, staying out")) = none ∧
    findJSONArray (jsonPartOf (g "trend unclear, staying out")) = none ∧
    ∃ summary : GoStr,
      extractDecisions (fun _ => none) (g "trend unclear, staying out") =
        .ok [fallbackDecision summary] ∧
      (fallbackDecision summary).symbol = g "ALL" ∧
      (fallbackDecision summary).action = g "wait" ∧
      (fallbackDecision summary).reasoning =
        g "模型未输出结构化JSON决策，进入安全等待；摘要：" ++ summary ∧
      ((summary = jsonPartOf (g "trend unclear, staying out") ∧
          summary.length ≤ 240) ∨
       summary = (jsonPartOf (g "trend unclear, staying out")).take 240 ++ g "...") :=
  ⟨by decide, by decide,
   extractDecisions_safe_fallback (fun _ => none)
     (g "trend unclear, staying out") (by decide) (by decide)⟩

end Nofx
